import Mathlib

/-!
# compare_titles: the CSV title-reconciliation pipeline of `main.go`

A shallow embedding of `parseAndCleanXML`, `getObject`, `processRecord` and
`compareTitlesCSV`, followed by theorems about them.

What the Go program obtains from its environment is made explicit:

* the content store (`os.ReadFile`) and the XML decoder (`xml.Unmarshal`) are the two
  fields of `World`;
* the source stream is the list of results that successive `csvReader.Read()` calls
  return; running off the end of the list is `io.EOF`;
* the destination stream, seen through the buffered `csv.Writer`, is a `Destination`:
  it decides which call of `csvWriter.Write` hits a failing underlying write and whether
  the deferred `csvWriter.Flush` does. Rows accepted by `Write` are in the destination
  only once a `Flush` has succeeded after them.

A row that `encoding/csv` rejects (bad quoting, wrong field count) is a `failure` entry of
the source. The `log` calls write to standard error and are left out.

Go's `(value, error)` results are pairs `value × Option GoError`; `none` is `nil`.
`lineCount` and `RecordsToProcess` are Go `int`s and are embedded as `Int`: the counter
only ever grows by one per record read, so 64-bit wrap-around is out of reach.
-/

namespace CompareTitles

/-! ## Errors -/

/-- Error values that the code compares against with `errors.Is`. -/
inductive Sentinel
  | errObjReadFailed
  | fsErrNotExist
  | ioEOF
deriving DecidableEq, Repr

/-- An error produced outside this package (by `os`, `encoding/xml`, `encoding/csv` or the
destination stream). `notExist` tells whether `errors.Is(err, fs.ErrNotExist)` holds for it.
Such an error is never the package-private `errObjReadFailed`. -/
structure LibError where
  msg : String
  notExist : Bool
deriving DecidableEq, Repr

/-- Go error values as this program builds them: a sentinel, a library error, or
`fmt.Errorf(format, args..., inner)` with integer arguments and one `%w` verb. -/
inductive GoError
  | sentinel (s : Sentinel)
  | lib (e : LibError)
  | wrapf (format : String) (args : List Int) (inner : GoError)
deriving DecidableEq, Repr

/-- The value `var errObjReadFailed = errors.New("failed to read content")`. -/
def errObjReadFailed : GoError := .sentinel .errObjReadFailed

/-- Go `errors.Is(err, target)` for a sentinel target: walk the `%w` chain. -/
def errorsIs : GoError → Sentinel → Bool
  | .sentinel s, t => decide (s = t)
  | .lib e, t => decide (t = .fsErrNotExist) && e.notExist
  | .wrapf _ _ inner, t => errorsIs inner t

/-! ## Data model -/

/-- A CSV record, Go `[]string`. -/
abbrev Record := List String

/-- The struct `xmlPost`; `Main.Body` is the nested anonymous struct's only field. -/
structure xmlPost where
  Title : String
  MainBody : String
deriving DecidableEq, Repr

structure parseXMLResponse where
  Title : String
deriving DecidableEq, Repr

structure recordProcessRequest where
  YggdrasilID : String
deriving DecidableEq, Repr

structure recordProcessResponse where
  CleanedTitle : String
deriving DecidableEq, Repr

/-- The constant `cleanedDataPath`. -/
def cleanedDataPath : String := "../ai_detect/data/content"

/-- The environment of `processRecord`: the file system read by `os.ReadFile`, and
`xml.Unmarshal` applied to a zero `xmlPost`, returning the struct as the decoder left it
(possibly partly filled) together with its error. -/
structure World where
  readFile : String → Except LibError String
  xmlUnmarshal : String → xmlPost × Option LibError

/-- One result of `csvReader.Read()` before end of input: a record, or an error other than
`io.EOF` (a parse error or a read error of the underlying stream). -/
inductive ReadResult
  | record (fields : Record)
  | failure (e : LibError)
deriving DecidableEq, Repr

/-- The destination stream as seen through the buffered writer. `writeErr i` is the error
of the underlying write performed during the call of `csvWriter.Write` made when `i` rows
have been accepted (`none`: the row was buffered or spilled without error); `flushErr i`
is the error met by `csvWriter.Flush` when `i` rows have been accepted. -/
structure Destination where
  writeErr : Nat → Option LibError
  flushErr : Nat → Option LibError

/-- State of a `csv.Writer`: the rows its `Write` accepted, in call order; the sticky
error of its underlying buffered writer; and whether bytes of accepted rows still sit in
the buffer, not yet handed to the destination. Every successful `Write` ends by putting
the line terminator into the buffer, so the buffer is non-empty after it; only a
successful `Flush` empties it. -/
structure CsvWriter where
  rows : List Record
  err : Option LibError
  pending : Bool
deriving DecidableEq, Repr

/-- The call `csv.NewWriter(req.Destination)`. -/
def NewWriter : CsvWriter := { rows := [], err := none, pending := false }

/-- The method `(*csv.Writer).Write`: appends the record to the buffered stream, where its
last bytes stay until a flush; an underlying write failure is returned and sticks. -/
def csvWrite (dest : Destination) (cw : CsvWriter) (record : Record) :
    CsvWriter × Option GoError :=
  match cw.err with
  | some e => (cw, some (.lib e))
  | none =>
    match dest.writeErr cw.rows.length with
    | some e => ({ cw with err := some e }, some (.lib e))
    | none => ({ cw with rows := cw.rows ++ [record], pending := true }, none)

/-- The method `(*csv.Writer).Flush`: hands the buffered bytes, if any, to the destination.
It returns nothing; a failure is only recorded inside the writer, and the bytes are then
not delivered. -/
def csvFlush (dest : Destination) (cw : CsvWriter) : CsvWriter :=
  match cw.err with
  | some _ => cw
  | none =>
    if cw.pending then
      match dest.flushErr cw.rows.length with
      | some e => { cw with err := some e }
      | none => { cw with pending := false }
    else cw

structure compareRequest where
  Source : List ReadResult
  Destination : Destination
  RecordsToProcess : Int

/-! ## The functions of `main.go` -/

/-- Source: `parseAndCleanXML`. -/
def parseAndCleanXML (w : World) (content : String) : parseXMLResponse × Option GoError :=
  let (doc, err) := w.xmlUnmarshal content
  match err with
  | some err => ({ Title := "" }, some (.wrapf "unmarshal error: %w" [] (.lib err)))
  | none => ({ Title := doc.Title }, none)

/-- Source: `getObject`. -/
def getObject (w : World) (name : String) : String × Option GoError :=
  let localPath := cleanedDataPath ++ "/" ++ name
  match w.readFile localPath with
  | .error err =>
    if errorsIs (.lib err) .fsErrNotExist then ("", some errObjReadFailed)
    else ("", some (.lib err))
  | .ok rawObj => (rawObj, none)

/-- Source: `processRecord`. -/
def processRecord (w : World) (req : recordProcessRequest) :
    recordProcessResponse × Option GoError :=
  let cleanedFileName := req.YggdrasilID ++ ".xml"
  let (obj, err) := getObject w cleanedFileName
  match err with
  | some err => ({ CleanedTitle := "" }, some (.wrapf "content get error: %w" [] err))
  | none =>
    let (result, err) := parseAndCleanXML w obj
    match err with
    | some err => ({ CleanedTitle := "" }, some (.wrapf "content cleaning error: %w" [] err))
    | none => ({ CleanedTitle := result.Title }, none)

/-- How a call of `compareTitlesCSV` ends: it returns an error value (`none` is `nil`), or
an index expression on `record` is out of range and the goroutine panics. -/
inductive Outcome
  | returned (err : Option GoError)
  | panicked
deriving DecidableEq, Repr

/-- The variables of the `for` loop, with the list of paths handed to `os.ReadFile`. -/
structure LoopState where
  writer : CsvWriter
  lineCount : Int
  lookups : List String
deriving DecidableEq, Repr

/-- What a call of `compareTitlesCSV` leaves behind. `writer` is `none` when
`csv.NewWriter` was never reached; `unread` is the part of the source for which `Read`
was never called. -/
structure Result where
  outcome : Outcome
  writer : Option CsvWriter
  lineCount : Int
  lookups : List String
  unread : List ReadResult
deriving DecidableEq, Repr

/-- Leave the loop in state `st` with the given outcome. -/
def LoopState.exit (st : LoopState) (o : Outcome) (unread : List ReadResult) : Result :=
  { outcome := o, writer := some st.writer, lineCount := st.lineCount,
    lookups := st.lookups, unread := unread }

/-- How one pass through the loop body ends, for a record that was read. -/
inductive BodyExit
  | skipWrite (st : LoopState)
  | ret (st : LoopState) (err : GoError)
  | panic (st : LoopState)
deriving DecidableEq, Repr

/-- Source: the body of the `for` loop of `compareTitlesCSV` from the call of
`processRecord` down to the label `SKIPWRITE`. -/
def loopBody (w : World) (dest : Destination) (st : LoopState) (record : Record) : BodyExit :=
  match record with
  | [] => .panic st
  | id :: more =>
    let (procResp, err) := processRecord w { YggdrasilID := id }
    let st := { st with lookups := st.lookups ++ [cleanedDataPath ++ "/" ++ (id ++ ".xml")] }
    match err with
    | some err =>
      if errorsIs err .errObjReadFailed then .skipWrite st
      else .ret st (.wrapf "unable to process line %d, %w" [st.lineCount + 1] err)
    | none =>
      match more with
      | [] => .panic st
      | title :: _ =>
        let (cw, err) := csvWrite dest st.writer [id, title, procResp.CleanedTitle]
        let st := { st with writer := cw }
        match err with
        | some err => .ret st (.wrapf "result output error line %d, %w" [st.lineCount + 1] err)
        | none => .skipWrite st

/-- Source: the `for` loop of `compareTitlesCSV`. -/
def loop (w : World) (dest : Destination) (cap : Int) :
    LoopState → List ReadResult → Result
  | st, [] =>
    if errorsIs (.sentinel .ioEOF) .ioEOF then st.exit (.returned none) []
    else st.exit (.returned (some (.wrapf "unable to parse file as CSV %w" []
      (.sentinel .ioEOF)))) []
  | st, .failure e :: rest =>
    if errorsIs (.lib e) .ioEOF then st.exit (.returned none) rest
    else st.exit (.returned (some (.wrapf "unable to parse file as CSV %w" [] (.lib e)))) rest
  | st, .record record :: rest =>
    match loopBody w dest st record with
    | .panic st => st.exit .panicked rest
    | .ret st err => st.exit (.returned (some err)) rest
    | .skipWrite st =>
      let st := { st with lineCount := st.lineCount + 1 }
      if 0 < cap ∧ cap ≤ st.lineCount then st.exit (.returned none) rest
      else loop w dest cap st rest

/-- The statement `defer csvWriter.Flush()`, run when the function leaves. -/
def deferFlush (dest : Destination) (r : Result) : Result :=
  { r with writer := r.writer.map (csvFlush dest) }

/-- The header row `compareTitlesCSV` writes. -/
def outputHeader : Record := ["yggdrasilId", "currentTitle", "trafilaturaTitle"]

/-- Source: `compareTitlesCSV`. -/
def compareTitlesCSV (w : World) (req : compareRequest) : Result :=
  match req.Source with
  | [] =>
    { outcome := .returned (some (.wrapf "unable to parse file as CSV %w" []
        (.sentinel .ioEOF))),
      writer := none, lineCount := 0, lookups := [], unread := [] }
  | .failure e :: rest =>
    { outcome := .returned (some (.wrapf "unable to parse file as CSV %w" [] (.lib e))),
      writer := none, lineCount := 0, lookups := [], unread := rest }
  | .record _ :: rest =>
    let (csvWriter, err) := csvWrite req.Destination NewWriter outputHeader
    let st : LoopState := { writer := csvWriter, lineCount := 0, lookups := [] }
    match err with
    | some err =>
      deferFlush req.Destination
        (st.exit (.returned (some (.wrapf "result output error %w" [] err))) rest)
    | none =>
      deferFlush req.Destination (loop w req.Destination req.RecordsToProcess st rest)

/-! ## Observations on a result -/

/-- Rows accepted by `csvWriter.Write`, header included. -/
def Result.rows (r : Result) : List Record :=
  match r.writer with
  | none => []
  | some cw => cw.rows

/-- The rows held by the destination once the call has left. Nothing when no writer was
created; all accepted rows when no underlying write failed and a flush has emptied the
buffer; `none` otherwise: after a failed write, or with bytes left in the buffer, the
destination holds only a truncated stream. -/
def Result.output (r : Result) : Option (List Record) :=
  match r.writer with
  | none => some []
  | some cw => if cw.err = none ∧ cw.pending = false then some cw.rows else none

/-- The first underlying write failure met on the destination, if any. -/
def Result.destErr (r : Result) : Option LibError :=
  match r.writer with
  | none => none
  | some cw => cw.err

/-! ## Specification vocabulary -/

/-- Key derivation of the content store: the path read for an identifier. -/
def contentPath (id : String) : String := cleanedDataPath ++ "/" ++ (id ++ ".xml")

/-- What the content store and the decoder say about one identifier, in the words of the
specification: the blob is absent, the store fails otherwise, the document does not parse,
or the document parses and declares a title. -/
inductive Resolution
  | notFound
  | storeUnavailable (e : LibError)
  | malformedDocument (e : LibError)
  | title (t : String)
deriving DecidableEq, Repr

/-- Resolution of an identifier, read off the environment alone. -/
def World.resolve (w : World) (id : String) : Resolution :=
  match w.readFile (contentPath id) with
  | .error e => if e.notExist then .notFound else .storeUnavailable e
  | .ok content =>
    match w.xmlUnmarshal content with
    | (_, some e) => .malformedDocument e
    | (doc, none) => .title doc.Title

/-- The title attribute the decoder reports for the stored document of an identifier. -/
def World.extractedTitle (w : World) (id : String) : String :=
  match w.readFile (contentPath id) with
  | .ok content => (w.xmlUnmarshal content).1.Title
  | .error _ => ""

/-- The record's identifier resolves to an absent blob. -/
def World.isNotFound (w : World) (r : Record) : Bool :=
  match r with
  | [] => false
  | id :: _ => decide (w.resolve id = .notFound)

/-- A record that the loop gets past: it has an identifier whose blob is absent, or it has
an identifier and a stored title and its document parses. -/
def World.passes (w : World) (r : Record) : Prop :=
  r ≠ [] ∧ (w.resolve (r.getD 0 "") = .notFound ∨
    (2 ≤ r.length ∧ ∃ t, w.resolve (r.getD 0 "") = .title t))

/-- The output row `(identifier, storedTitle, extractedTitle)` of an input record. -/
def outRow (w : World) (r : Record) : Record :=
  [r.getD 0 "", r.getD 1 "", w.extractedTitle (r.getD 0 "")]

/-- Output rows of a list of input records: skipped records absent, order kept. -/
def writtenRows (w : World) (recs : List Record) : List Record :=
  (recs.filter (fun r => !w.isNotFound r)).map (outRow w)

/-- The pair `(identifier, storedTitle)` of a row. -/
def fieldsPair (r : Record) : String × String := (r.getD 0 "", r.getD 1 "")

/-- The records of a source up to its first unreadable row. -/
def leadingRecords : List ReadResult → List Record
  | .record r :: rest => r :: leadingRecords rest
  | _ => []

/-- A destination on which no underlying write ever fails. -/
def Destination.reliable (dest : Destination) : Prop :=
  ∀ i, dest.writeErr i = none ∧ dest.flushErr i = none

/-- The loop state in which a pass through the body ends. -/
def BodyExit.state : BodyExit → LoopState
  | .skipWrite st => st
  | .ret st _ => st
  | .panic st => st

/-- The source cut after its header and its first `c` data rows; unchanged when `c ≤ 0`. -/
def truncateSource (c : Int) (src : List ReadResult) : List ReadResult :=
  if 0 < c then src.take (c.toNat + 1) else src

/-- Two results agree on everything but the counter, the lookups and the line numbers
quoted in an error: same writer state, and both return nil, both return an error, or both
panic. -/
def Result.sameEffect (a b : Result) : Prop :=
  a.writer = b.writer ∧ (a.outcome = .returned none ↔ b.outcome = .returned none) ∧
    (a.outcome = .panicked ↔ b.outcome = .panicked)

/-! ## Sample data -/

/-- A small content store: `A1` holds a titled document, `E1` a document with an empty
title, `B1` a document that does not parse (the decoder stops after filling the title),
`P1` cannot be read, and every other blob is absent. -/
def sampleWorld : World where
  readFile p :=
    if p = "../ai_detect/data/content/A1.xml" then
      .ok "<post title=\"New Title\"><main>text</main></post>"
    else if p = "../ai_detect/data/content/E1.xml" then
      .ok "<post title=\"\"><main>text</main></post>"
    else if p = "../ai_detect/data/content/B1.xml" then
      .ok "<post title=\"Half\"><main>"
    else if p = "../ai_detect/data/content/P1.xml" then
      .error { msg := "permission denied", notExist := false }
    else .error { msg := "no such file or directory", notExist := true }
  xmlUnmarshal c :=
    if c = "<post title=\"New Title\"><main>text</main></post>" then
      ({ Title := "New Title", MainBody := "text" }, none)
    else if c = "<post title=\"\"><main>text</main></post>" then
      ({ Title := "", MainBody := "text" }, none)
    else if c = "<post title=\"Half\"><main>" then
      ({ Title := "Half", MainBody := "" },
        some { msg := "XML syntax error: unexpected EOF", notExist := false })
    else ({ Title := "", MainBody := "" }, some { msg := "EOF", notExist := false })

/-- A destination that accepts every write. -/
def goodDest : Destination := { writeErr := fun _ => none, flushErr := fun _ => none }

/-- A destination that rejects every write it receives; output below the buffer size only
reaches it at the final flush. -/
def closedDest : Destination :=
  { writeErr := fun _ => none,
    flushErr := fun _ => some { msg := "write: file already closed", notExist := false } }

/-- The header row of the input file. -/
def sampleHeader : Record := ["yggdrasilId", "title", "createdAt"]

/-! ## The record-level functions -/

theorem processRecord_resolve (w : World) (id : String) :
    processRecord w { YggdrasilID := id } =
      match w.resolve id with
      | .notFound =>
        ({ CleanedTitle := "" }, some (.wrapf "content get error: %w" [] errObjReadFailed))
      | .storeUnavailable e =>
        ({ CleanedTitle := "" }, some (.wrapf "content get error: %w" [] (.lib e)))
      | .malformedDocument e =>
        ({ CleanedTitle := "" }, some (.wrapf "content cleaning error: %w" []
          (.wrapf "unmarshal error: %w" [] (.lib e))))
      | .title t => ({ CleanedTitle := t }, none) := by
  cases h : w.readFile (contentPath id) with
  | error e =>
    have h2 : w.readFile (cleanedDataPath ++ "/" ++ (id ++ ".xml")) = .error e := h
    cases hn : e.notExist <;>
      simp [processRecord, getObject, World.resolve, h, h2, errorsIs, hn]
  | ok content =>
    have h2 : w.readFile (cleanedDataPath ++ "/" ++ (id ++ ".xml")) = .ok content := h
    rcases hx : w.xmlUnmarshal content with ⟨doc, _ | e⟩ <;>
      simp [processRecord, getObject, parseAndCleanXML, World.resolve, h, h2, hx]

theorem resolve_notFound_iff (w : World) (id : String) :
    w.resolve id = .notFound ↔
      ∃ e, w.readFile (contentPath id) = .error e ∧ e.notExist = true := by
  unfold World.resolve
  cases h : w.readFile (contentPath id) with
  | error e => cases hn : e.notExist <;> simp [hn]
  | ok content => rcases hx : w.xmlUnmarshal content with ⟨doc, _ | e⟩ <;> simp [hx]

theorem resolve_title_iff (w : World) (id t : String) :
    w.resolve id = .title t ↔
      ∃ content doc, w.readFile (contentPath id) = .ok content ∧
        w.xmlUnmarshal content = (doc, none) ∧ doc.Title = t := by
  unfold World.resolve
  cases h : w.readFile (contentPath id) with
  | error e => cases hn : e.notExist <;> simp [hn]
  | ok content => rcases hx : w.xmlUnmarshal content with ⟨doc, _ | e⟩ <;> simp [hx]

theorem extractedTitle_of_resolve (w : World) (id t : String)
    (h : w.resolve id = .title t) : w.extractedTitle id = t := by
  obtain ⟨content, doc, h1, h2, h3⟩ := (resolve_title_iff w id t).1 h
  simp [World.extractedTitle, h1, h2, h3]

/-- The loop body, case by case on the resolution of the record's identifier. -/
theorem loopBody_cons (w : World) (dest : Destination) (st : LoopState) (id : String)
    (more : List String) :
    loopBody w dest st (id :: more) =
      match w.resolve id with
      | .notFound => .skipWrite { st with lookups := st.lookups ++ [contentPath id] }
      | .storeUnavailable e =>
        .ret { st with lookups := st.lookups ++ [contentPath id] }
          (.wrapf "unable to process line %d, %w" [st.lineCount + 1]
            (.wrapf "content get error: %w" [] (.lib e)))
      | .malformedDocument e =>
        .ret { st with lookups := st.lookups ++ [contentPath id] }
          (.wrapf "unable to process line %d, %w" [st.lineCount + 1]
            (.wrapf "content cleaning error: %w" []
              (.wrapf "unmarshal error: %w" [] (.lib e))))
      | .title t =>
        match more with
        | [] => .panic { st with lookups := st.lookups ++ [contentPath id] }
        | stored :: _ =>
          match (csvWrite dest st.writer [id, stored, t]).2 with
          | some err =>
            .ret { writer := (csvWrite dest st.writer [id, stored, t]).1,
                   lineCount := st.lineCount,
                   lookups := st.lookups ++ [contentPath id] }
              (.wrapf "result output error line %d, %w" [st.lineCount + 1] err)
          | none =>
            .skipWrite { writer := (csvWrite dest st.writer [id, stored, t]).1,
                         lineCount := st.lineCount,
                         lookups := st.lookups ++ [contentPath id] } := by
  simp only [loopBody, processRecord_resolve]
  cases hr : w.resolve id with
  | notFound => simp [errorsIs, errObjReadFailed, contentPath]
  | storeUnavailable e => simp [errorsIs, contentPath]
  | malformedDocument e => simp [errorsIs, contentPath]
  | title t =>
    cases more with
    | nil => simp [contentPath]
    | cons stored tl =>
      simp only [contentPath]

/-! ## The loop -/

theorem loop_nil (w : World) (dest : Destination) (cap : Int) (st : LoopState) :
    loop w dest cap st [] = st.exit (.returned none) [] := rfl

theorem loop_failure (w : World) (dest : Destination) (cap : Int) (st : LoopState)
    (e : LibError) (rest : List ReadResult) :
    loop w dest cap st (.failure e :: rest) =
      st.exit (.returned (some (.wrapf "unable to parse file as CSV %w" [] (.lib e)))) rest :=
  rfl

theorem loop_record (w : World) (dest : Destination) (cap : Int) (st : LoopState)
    (r : Record) (rest : List ReadResult) :
    loop w dest cap st (.record r :: rest) =
      match loopBody w dest st r with
      | .panic st => st.exit .panicked rest
      | .ret st err => st.exit (.returned (some err)) rest
      | .skipWrite st =>
        if 0 < cap ∧ cap ≤ st.lineCount + 1 then
          LoopState.exit { st with lineCount := st.lineCount + 1 } (.returned none) rest
        else loop w dest cap { st with lineCount := st.lineCount + 1 } rest := rfl

theorem csvWrite_ok (dest : Destination) (rows : List Record) (row : Record) (p : Bool)
    (h : dest.writeErr rows.length = none) :
    csvWrite dest { rows := rows, err := none, pending := p } row =
      ({ rows := rows ++ [row], err := none, pending := true }, none) := by
  simp [csvWrite, h]

theorem writtenRows_cons_notFound (w : World) (id : String) (more : List String)
    (pre : List Record) (h : w.resolve id = .notFound) :
    writtenRows w ((id :: more) :: pre) = writtenRows w pre := by
  simp [writtenRows, World.isNotFound, h]

theorem writtenRows_cons_title (w : World) (id stored t : String) (more : List String)
    (pre : List Record) (h : w.resolve id = .title t) :
    writtenRows w ((id :: stored :: more) :: pre) = [id, stored, t] :: writtenRows w pre := by
  simp [writtenRows, World.isNotFound, h, outRow, extractedTitle_of_resolve w id t h]

/-- Records that pass are consumed one by one: the loop arrives at what follows them with
their rows written, the counter advanced by their number and one lookup made for each. -/
theorem loop_passes (w : World) (dest : Destination) (cap : Int)
    (hd : ∀ i, dest.writeErr i = none) :
    ∀ (pre : List Record) (rows : List Record) (n : Int) (lk : List String)
      (rest : List ReadResult),
      (∀ r ∈ pre, w.passes r) → (cap ≤ 0 ∨ n + pre.length < cap) →
      loop w dest cap
        { writer := { rows := rows, err := none, pending := true },
          lineCount := n, lookups := lk }
          (pre.map .record ++ rest) =
        loop w dest cap
          { writer := { rows := rows ++ writtenRows w pre, err := none, pending := true },
            lineCount := n + pre.length,
            lookups := lk ++ pre.map (fun r => contentPath (r.getD 0 "")) } rest := by
  intro pre
  induction pre with
  | nil => intro rows n lk rest _ _; simp [writtenRows]
  | cons r pre ih =>
    intro rows n lk rest hp hcap
    obtain ⟨hne, hcase⟩ := hp r (List.mem_cons_self _ _)
    have hp2 : ∀ r ∈ pre, w.passes r := fun x hx => hp x (List.mem_cons_of_mem _ hx)
    have hlen : ((r :: pre).length : Int) = pre.length + 1 := by simp
    have hstop : ¬ (0 < cap ∧ cap ≤ n + 1) := by
      rw [hlen] at hcap
      omega
    have hcap2 : cap ≤ 0 ∨ n + 1 + pre.length < cap := by
      rw [hlen] at hcap
      omega
    cases r with
    | nil => exact absurd rfl hne
    | cons id more =>
      simp only [List.getD_cons_zero] at hcase
      rcases hcase with h | ⟨hl, t, ht⟩
      · rw [List.map_cons, List.cons_append, loop_record, loopBody_cons, h]
        simp only [if_neg hstop]
        rw [ih rows (n + 1) _ rest hp2 hcap2, writtenRows_cons_notFound w id more pre h, hlen,
          show n + 1 + (pre.length : Int) = n + ((pre.length : Int) + 1) by ring]
        simp
      · cases more with
        | nil => simp at hl
        | cons stored tl =>
          rw [List.map_cons, List.cons_append, loop_record, loopBody_cons, ht]
          simp only [csvWrite_ok dest rows _ true (hd _), if_neg hstop]
          rw [ih _ (n + 1) _ rest hp2 hcap2, writtenRows_cons_title w id stored t tl pre ht, hlen,
            show n + 1 + (pre.length : Int) = n + ((pre.length : Int) + 1) by ring]
          simp

theorem loopBody_lineCount (w : World) (dest : Destination) (st : LoopState) (r : Record) :
    (loopBody w dest st r).state.lineCount = st.lineCount := by
  cases r with
  | nil => simp [loopBody, BodyExit.state]
  | cons id more =>
    rw [loopBody_cons]
    cases w.resolve id with
    | notFound => simp [BodyExit.state]
    | storeUnavailable e => simp [BodyExit.state]
    | malformedDocument e => simp [BodyExit.state]
    | title t =>
      cases more with
      | nil => simp [BodyExit.state]
      | cons stored tl =>
        cases h : (csvWrite dest st.writer [id, stored, t]).2 <;> simp [BodyExit.state, h]

theorem loopBody_skipWrite_lookups (w : World) (dest : Destination) (st s : LoopState)
    (r : Record) (h : loopBody w dest st r = .skipWrite s) :
    s.lookups = st.lookups ++ [contentPath (r.getD 0 "")] := by
  cases r with
  | nil => simp [loopBody] at h
  | cons id more =>
    rw [loopBody_cons] at h
    cases hr : w.resolve id with
    | notFound => simp [hr] at h; simp [← h]
    | storeUnavailable e => simp [hr] at h
    | malformedDocument e => simp [hr] at h
    | title t =>
      cases more with
      | nil => simp [hr] at h
      | cons stored tl =>
        cases hc : (csvWrite dest st.writer [id, stored, t]).2 <;> simp [hr, hc] at h
        simp [← h]

/-- Under a positive cap, a loop that ends by returning nil has counted every record up to
the cap, has left unread exactly what lies beyond the cap, and has made one lookup for
each record it counted. -/
theorem loop_cap_count (w : World) (dest : Destination) (cap : Int) (hc : 0 < cap) :
    ∀ (src : List ReadResult) (st : LoopState), st.lineCount < cap →
      (loop w dest cap st src).outcome = .returned none →
      (loop w dest cap st src).lineCount = min cap (st.lineCount + src.length) ∧
      (loop w dest cap st src).unread = src.drop (cap - st.lineCount).toNat ∧
      ((loop w dest cap st src).lookups.length : Int) - (loop w dest cap st src).lineCount =
        st.lookups.length - st.lineCount := by
  intro src
  induction src with
  | nil =>
    intro st hlt _
    simp only [loop_nil, LoopState.exit, List.length_nil, List.drop_nil]
    refine ⟨?_, trivial, trivial⟩
    simp only [Nat.cast_zero, add_zero]
    omega
  | cons x rest ih =>
    intro st hlt hout
    cases x with
    | failure e => simp [loop_failure, LoopState.exit] at hout
    | record r =>
      rw [loop_record] at hout ⊢
      have hlc := loopBody_lineCount w dest st r
      cases hb : loopBody w dest st r with
      | panic s => simp [hb, LoopState.exit] at hout
      | ret s err => simp [hb, LoopState.exit] at hout
      | skipWrite s =>
        have hlk := loopBody_skipWrite_lookups w dest st s r hb
        simp only [hb, BodyExit.state] at hlc hout ⊢
        have hsplit : (cap - st.lineCount).toNat = (cap - (st.lineCount + 1)).toNat + 1 := by
          omega
        by_cases hstop : 0 < cap ∧ cap ≤ s.lineCount + 1
        · simp only [if_pos hstop, LoopState.exit]
          have h1 : (cap - st.lineCount).toNat = 1 := by omega
          refine ⟨?_, ?_, ?_⟩
          · simp only [List.length_cons, Nat.cast_add, Nat.cast_one]
            omega
          · rw [h1]; rfl
          · rw [hlk]
            simp only [List.length_append, List.length_singleton, Nat.cast_add, Nat.cast_one]
            omega
        · simp only [if_neg hstop] at hout ⊢
          have hlt2 : ({ s with lineCount := s.lineCount + 1 } : LoopState).lineCount < cap := by
            simp only
            omega
          obtain ⟨h1, h2, h3⟩ := ih _ hlt2 hout
          refine ⟨?_, ?_, ?_⟩
          · rw [h1]
            simp only [List.length_cons, Nat.cast_add, Nat.cast_one, hlc]
            omega
          · rw [h2, hsplit]
            simp only [hlc, List.drop_succ_cons]
          · rw [h3, hlk]
            simp only [List.length_append, List.length_singleton, Nat.cast_add, Nat.cast_one]
            omega

/-- A cap of zero or below never stops the loop: it behaves as the cap 0. -/
theorem loop_nonpos_cap (w : World) (dest : Destination) (cap : Int) (hc : cap ≤ 0) :
    ∀ (src : List ReadResult) (st : LoopState),
      loop w dest cap st src = loop w dest 0 st src := by
  intro src
  induction src with
  | nil => intro st; rfl
  | cons x rest ih =>
    intro st
    cases x with
    | failure e => rfl
    | record r =>
      rw [loop_record, loop_record]
      cases loopBody w dest st r with
      | panic s => rfl
      | ret s err => rfl
      | skipWrite s =>
        have h1 : ¬ (0 < cap ∧ cap ≤ s.lineCount + 1) := by omega
        have h2 : ¬ ((0 : Int) < 0 ∧ (0 : Int) ≤ s.lineCount + 1) := by omega
        simp only [if_neg h1, if_neg h2]
        exact ih _

/-- Under a positive cap the loop does what the uncapped loop does on the source cut at
the cap, up to the unread remainder. -/
theorem loop_cap_truncate (w : World) (dest : Destination) (cap : Int) (hc : 0 < cap) :
    ∀ (src : List ReadResult) (st : LoopState), st.lineCount < cap →
      (loop w dest cap st src).outcome =
        (loop w dest 0 st (src.take (cap - st.lineCount).toNat)).outcome ∧
      (loop w dest cap st src).writer =
        (loop w dest 0 st (src.take (cap - st.lineCount).toNat)).writer ∧
      (loop w dest cap st src).lineCount =
        (loop w dest 0 st (src.take (cap - st.lineCount).toNat)).lineCount ∧
      (loop w dest cap st src).lookups =
        (loop w dest 0 st (src.take (cap - st.lineCount).toNat)).lookups := by
  intro src
  induction src with
  | nil => intro st _; simp [loop_nil]
  | cons x rest ih =>
    intro st hlt
    have hsplit : (cap - st.lineCount).toNat = (cap - (st.lineCount + 1)).toNat + 1 := by
      omega
    rw [hsplit, List.take_succ_cons]
    cases x with
    | failure e => simp [loop_failure, LoopState.exit]
    | record r =>
      rw [loop_record, loop_record]
      have hlc := loopBody_lineCount w dest st r
      cases hb : loopBody w dest st r with
      | panic s => simp [LoopState.exit]
      | ret s err => simp [LoopState.exit]
      | skipWrite s =>
        simp only [hb, BodyExit.state] at hlc
        have h2 : ¬ ((0 : Int) < 0 ∧ (0 : Int) ≤ s.lineCount + 1) := by omega
        simp only [if_neg h2]
        by_cases hstop : 0 < cap ∧ cap ≤ s.lineCount + 1
        · have h0 : (cap - (st.lineCount + 1)).toNat = 0 := by omega
          simp only [if_pos hstop, h0, List.take_zero, loop_nil, LoopState.exit, and_self]
        · simp only [if_neg hstop]
          have hlt2 : ({ s with lineCount := s.lineCount + 1 } : LoopState).lineCount < cap := by
            simp only
            omega
          have := ih _ hlt2
          simp only [hlc] at this ⊢
          exact this

/-- The body treats two states with the same writer alike. -/
theorem loopBody_writer_congr (w : World) (dest : Destination) (st st2 : LoopState)
    (r : Record) (h : st.writer = st2.writer) :
    match loopBody w dest st r, loopBody w dest st2 r with
    | .skipWrite s, .skipWrite s2 => s.writer = s2.writer
    | .ret s _, .ret s2 _ => s.writer = s2.writer
    | .panic s, .panic s2 => s.writer = s2.writer
    | _, _ => False := by
  cases r with
  | nil => simpa [loopBody] using h
  | cons id more =>
    rw [loopBody_cons, loopBody_cons]
    cases w.resolve id with
    | notFound => simpa using h
    | storeUnavailable e => simpa using h
    | malformedDocument e => simpa using h
    | title t =>
      cases more with
      | nil => simpa using h
      | cons stored tl =>
        rw [← h]
        cases hc : (csvWrite dest st.writer [id, stored, t]).2 <;> simp [hc]

/-- One step of the comparison of two uncapped loops that start with the same writer. -/
theorem loop_record_sameEffect (w : World) (dest : Destination) (cap : Int) (hc : cap ≤ 0)
    (st st2 : LoopState) (r : Record) (rest rest2 : List ReadResult)
    (h : st.writer = st2.writer)
    (ih : ∀ s s2 : LoopState, s.writer = s2.writer →
      (loop w dest cap s rest).sameEffect (loop w dest cap s2 rest2)) :
    (loop w dest cap st (.record r :: rest)).sameEffect
      (loop w dest cap st2 (.record r :: rest2)) := by
  rw [loop_record, loop_record]
  have hb := loopBody_writer_congr w dest st st2 r h
  cases h1 : loopBody w dest st r <;> cases h2 : loopBody w dest st2 r <;>
    simp only [h1, h2] at hb
  · rename_i s s2
    have n1 : ¬ (0 < cap ∧ cap ≤ s.lineCount + 1) := by omega
    have n2 : ¬ (0 < cap ∧ cap ≤ s2.lineCount + 1) := by omega
    simp only [if_neg n1, if_neg n2]
    exact ih _ _ hb
  · simp [Result.sameEffect, LoopState.exit, hb]
  · simp [Result.sameEffect, LoopState.exit, hb]

/-- Without a cap, the effect of the loop does not depend on the counter it starts from. -/
theorem loop_sameEffect (w : World) (dest : Destination) (cap : Int) (hc : cap ≤ 0) :
    ∀ (src : List ReadResult) (st st2 : LoopState), st.writer = st2.writer →
      (loop w dest cap st src).sameEffect (loop w dest cap st2 src) := by
  intro src
  induction src with
  | nil => intro st st2 h; simp [Result.sameEffect, loop_nil, LoopState.exit, h]
  | cons x rest ih =>
    intro st st2 h
    cases x with
    | failure e => simp [Result.sameEffect, loop_failure, LoopState.exit, h]
    | record r => exact loop_record_sameEffect w dest cap hc st st2 r rest rest h ih

/-- Without a cap, removing a record whose blob is absent leaves the effect of the loop
unchanged. -/
theorem loop_skip_sameEffect (w : World) (dest : Destination) (cap : Int) (hc : cap ≤ 0)
    (id : String) (more : List String) (post : List ReadResult)
    (hnf : w.resolve id = .notFound) :
    ∀ (pre : List ReadResult) (st st2 : LoopState), st.writer = st2.writer →
      (loop w dest cap st (pre ++ .record (id :: more) :: post)).sameEffect
        (loop w dest cap st2 (pre ++ post)) := by
  intro pre
  induction pre with
  | nil =>
    intro st st2 h
    have n1 : ¬ (0 < cap ∧ cap ≤ st.lineCount + 1) := by omega
    rw [List.nil_append, List.nil_append, loop_record, loopBody_cons, hnf]
    simp only [if_neg n1]
    exact loop_sameEffect w dest cap hc post _ _ h
  | cons x pre ih =>
    intro st st2 h
    cases x with
    | failure e => simp [Result.sameEffect, loop_failure, LoopState.exit, h]
    | record r =>
      exact loop_record_sameEffect w dest cap hc st st2 r _ _ h ih

/-- Without a cap, a loop that returns nil has counted every entry of its source and has
left nothing unread. -/
theorem loop_uncapped_count (w : World) (dest : Destination) (cap : Int) (hc : cap ≤ 0) :
    ∀ (src : List ReadResult) (st : LoopState),
      (loop w dest cap st src).outcome = .returned none →
      (loop w dest cap st src).lineCount = st.lineCount + src.length ∧
      (loop w dest cap st src).unread = [] := by
  intro src
  induction src with
  | nil => intro st _; simp [loop_nil, LoopState.exit]
  | cons x rest ih =>
    intro st hout
    cases x with
    | failure e => simp [loop_failure, LoopState.exit] at hout
    | record r =>
      rw [loop_record] at hout ⊢
      have hlc := loopBody_lineCount w dest st r
      cases hb : loopBody w dest st r with
      | panic s => simp [hb, LoopState.exit] at hout
      | ret s err => simp [hb, LoopState.exit] at hout
      | skipWrite s =>
        simp only [hb, BodyExit.state] at hlc hout ⊢
        have n1 : ¬ (0 < cap ∧ cap ≤ s.lineCount + 1) := by omega
        simp only [if_neg n1] at hout ⊢
        obtain ⟨h1, h2⟩ := ih _ hout
        refine ⟨?_, h2⟩
        rw [h1]
        simp only [hlc, List.length_cons, Nat.cast_add, Nat.cast_one]
        ring

/-- The loop never looks at what `Flush` will do. -/
theorem loop_ignores_flushErr (w : World) (dest : Destination)
    (f : Nat → Option LibError) (cap : Int) :
    ∀ (src : List ReadResult) (st : LoopState),
      loop w { writeErr := dest.writeErr, flushErr := f } cap st src =
        loop w dest cap st src := by
  intro src
  induction src with
  | nil => intro st; rfl
  | cons x rest ih =>
    intro st
    cases x with
    | failure e => rfl
    | record r =>
      rw [loop_record, loop_record]
      have hb : loopBody w { writeErr := dest.writeErr, flushErr := f } st r =
          loopBody w dest st r := rfl
      rw [hb]
      cases loopBody w dest st r with
      | panic s => rfl
      | ret s err => rfl
      | skipWrite s =>
        by_cases hstop : 0 < cap ∧ cap ≤ s.lineCount + 1
        · simp only [if_pos hstop]
        · simp only [if_neg hstop]
          exact ih _

/-- A pass through the body that does not return leaves the writer without error when it
found it so. -/
theorem loopBody_writer_err (w : World) (dest : Destination) (st : LoopState) (r : Record)
    (h : st.writer.err = none) :
    match loopBody w dest st r with
    | .skipWrite s => s.writer.err = none
    | .panic s => s.writer.err = none
    | .ret _ _ => True := by
  cases r with
  | nil => simpa [loopBody] using h
  | cons id more =>
    rw [loopBody_cons]
    cases w.resolve id with
    | notFound => simpa using h
    | storeUnavailable e => simp
    | malformedDocument e => simp
    | title t =>
      cases more with
      | nil => simpa using h
      | cons stored tl =>
        obtain ⟨⟨rows, err⟩, n, lk⟩ := st
        simp only at h
        subst h
        cases hw : dest.writeErr rows.length <;> simp [csvWrite, hw]

/-- A loop entered with a writer free of error leaves it with an error only by returning an
error: every failure of `csvWriter.Write` inside the loop is reported. -/
theorem loop_writer_err (w : World) (dest : Destination) (cap : Int) :
    ∀ (src : List ReadResult) (st : LoopState), st.writer.err = none →
      (loop w dest cap st src).destErr = none ∨
        ∃ err, (loop w dest cap st src).outcome = .returned (some err) := by
  intro src
  induction src with
  | nil => intro st h; exact Or.inl (by simp [loop_nil, LoopState.exit, Result.destErr, h])
  | cons x rest ih =>
    intro st h
    cases x with
    | failure e => exact Or.inr ⟨_, rfl⟩
    | record r =>
      rw [loop_record]
      have hb := loopBody_writer_err w dest st r h
      cases hbody : loopBody w dest st r with
      | panic s =>
        simp only [hbody] at hb
        exact Or.inl (by simp [LoopState.exit, Result.destErr, hb])
      | ret s err => exact Or.inr ⟨err, rfl⟩
      | skipWrite s =>
        simp only [hbody] at hb
        by_cases hstop : 0 < cap ∧ cap ≤ s.lineCount + 1
        · simp only [if_pos hstop]
          exact Or.inl (by simp [LoopState.exit, Result.destErr, hb])
        · simp only [if_neg hstop]
          exact ih _ hb

theorem csvWrite_rows (dest : Destination) (cw : CsvWriter) (row : Record) :
    match (csvWrite dest cw row).2 with
    | some _ => (csvWrite dest cw row).1.rows = cw.rows
    | none => (csvWrite dest cw row).1.rows = cw.rows ++ [row] := by
  unfold csvWrite
  cases cw.err with
  | some e => simp
  | none => cases dest.writeErr cw.rows.length <;> simp

/-- What one pass through the body does to the accepted rows and to the lookups: a pass
that reaches `SKIPWRITE` either skipped an absent blob or appended the record's output row;
a pass that returns or panics appended nothing. Every pass past the index `record[0]` makes
exactly one lookup. -/
theorem loopBody_rows (w : World) (dest : Destination) (st : LoopState) (r : Record) :
    match loopBody w dest st r with
    | .skipWrite s =>
      s.lookups = st.lookups ++ [contentPath (r.getD 0 "")] ∧
      ((w.isNotFound r = true ∧ s.writer.rows = st.writer.rows) ∨
        (w.isNotFound r = false ∧ 2 ≤ r.length ∧
          s.writer.rows = st.writer.rows ++ [outRow w r]))
    | .ret s _ =>
      s.writer.rows = st.writer.rows ∧ s.lookups = st.lookups ++ [contentPath (r.getD 0 "")]
    | .panic s =>
      s.writer.rows = st.writer.rows ∧
        (s.lookups = st.lookups ∨ s.lookups = st.lookups ++ [contentPath (r.getD 0 "")]) := by
  cases r with
  | nil => simp [loopBody]
  | cons id more =>
    rw [loopBody_cons]
    cases hr : w.resolve id with
    | notFound => simp [World.isNotFound, hr]
    | storeUnavailable e => simp
    | malformedDocument e => simp
    | title t =>
      cases more with
      | nil => simp
      | cons stored tl =>
        have hcw := csvWrite_rows dest st.writer [id, stored, t]
        cases hc : (csvWrite dest st.writer [id, stored, t]).2 with
        | some err =>
          simp only [hc] at hcw ⊢
          simp [hcw]
        | none =>
          simp only [hc] at hcw ⊢
          simp [hcw, World.isNotFound, hr, outRow, extractedTitle_of_resolve w id t hr]

/-- The rows accepted during the loop are the output rows of a prefix of the records of
the source, and the lookups made are those of a prefix of the records. -/
theorem loop_rows (w : World) (dest : Destination) (cap : Int) :
    ∀ (src : List ReadResult) (st : LoopState),
      (∃ j, j ≤ (leadingRecords src).length ∧
        (loop w dest cap st src).rows =
          st.writer.rows ++ writtenRows w ((leadingRecords src).take j) ∧
        ∀ r ∈ ((leadingRecords src).take j).filter (fun r => !w.isNotFound r),
          2 ≤ r.length) ∧
      (∃ j, (loop w dest cap st src).lookups =
          st.lookups ++ ((leadingRecords src).take j).map (fun r => contentPath (r.getD 0 ""))) := by
  intro src
  induction src with
  | nil =>
    intro st
    exact ⟨⟨0, by simp [leadingRecords], by simp [loop_nil, LoopState.exit, Result.rows,
      writtenRows], by simp⟩, ⟨0, by simp [loop_nil, LoopState.exit]⟩⟩
  | cons x rest ih =>
    intro st
    cases x with
    | failure e =>
      exact ⟨⟨0, by simp [leadingRecords], by simp [loop_failure, LoopState.exit, Result.rows,
        writtenRows], by simp⟩, ⟨0, by simp [loop_failure, LoopState.exit]⟩⟩
    | record r =>
      rw [loop_record]
      have hb := loopBody_rows w dest st r
      cases hbody : loopBody w dest st r with
      | panic s =>
        simp only [hbody] at hb
        refine ⟨⟨0, by simp, by simp [LoopState.exit, Result.rows, writtenRows, hb.1],
          by simp⟩, ?_⟩
        rcases hb.2 with h | h
        · exact ⟨0, by simp [LoopState.exit, h]⟩
        · exact ⟨1, by simp [LoopState.exit, h, leadingRecords]⟩
      | ret s err =>
        simp only [hbody] at hb
        exact ⟨⟨0, by simp, by simp [LoopState.exit, Result.rows, writtenRows, hb.1],
          by simp⟩, ⟨1, by simp [LoopState.exit, hb.2, leadingRecords]⟩⟩
      | skipWrite s =>
        simp only [hbody] at hb
        obtain ⟨hlk, hrows⟩ := hb
        have hfinal : ∀ res : Result,
            ((∃ j, j ≤ (leadingRecords rest).length ∧
              res.rows = s.writer.rows ++ writtenRows w ((leadingRecords rest).take j) ∧
              ∀ x ∈ ((leadingRecords rest).take j).filter (fun r => !w.isNotFound r),
                2 ≤ x.length) ∧
            (∃ j, res.lookups = s.lookups ++
              ((leadingRecords rest).take j).map (fun r => contentPath (r.getD 0 "")))) →
            ((∃ j, j ≤ (leadingRecords (.record r :: rest)).length ∧
              res.rows = st.writer.rows ++
                writtenRows w ((leadingRecords (.record r :: rest)).take j) ∧
              ∀ x ∈ ((leadingRecords (.record r :: rest)).take j).filter
                  (fun r => !w.isNotFound r), 2 ≤ x.length) ∧
            (∃ j, res.lookups = st.lookups ++
              ((leadingRecords (.record r :: rest)).take j).map
                (fun r => contentPath (r.getD 0 "")))) := by
          rintro res ⟨⟨j, hj, hres, hlen⟩, ⟨j2, hlk2⟩⟩
          refine ⟨⟨j + 1, by simp [leadingRecords, hj], ?_, ?_⟩, ⟨j2 + 1, ?_⟩⟩
          · rcases hrows with ⟨hnf, hw⟩ | ⟨hnf, _, hw⟩
            · simp [leadingRecords, hres, hw, writtenRows, hnf]
            · simp [leadingRecords, hres, hw, writtenRows, hnf]
          · intro r2 hr2
            rw [List.mem_filter] at hr2
            obtain ⟨hm, hp⟩ := hr2
            simp only [leadingRecords, List.take_succ_cons, List.mem_cons] at hm
            rcases hm with rfl | hm
            · rcases hrows with ⟨hnf, _⟩ | ⟨_, h2, _⟩
              · simp [hnf] at hp
              · exact h2
            · exact hlen r2 (List.mem_filter.2 ⟨hm, hp⟩)
          · simp [leadingRecords, hlk2, hlk]
        by_cases hstop : 0 < cap ∧ cap ≤ s.lineCount + 1
        · simp only [if_pos hstop]
          exact hfinal _ ⟨⟨0, by simp, by simp [LoopState.exit, Result.rows, writtenRows],
            by simp⟩, ⟨0, by simp [LoopState.exit]⟩⟩
        · simp only [if_neg hstop]
          exact hfinal _ (ih _)

/-! ## Whole runs -/

theorem compareTitlesCSV_record (w : World) (dest : Destination) (cap : Int) (h : Record)
    (rest : List ReadResult) (hw : dest.writeErr 0 = none) :
    compareTitlesCSV w { Source := .record h :: rest, Destination := dest,
                         RecordsToProcess := cap } =
      deferFlush dest (loop w dest cap
        { writer := { rows := [outputHeader], err := none, pending := true },
          lineCount := 0, lookups := [] }
        rest) := by
  simp [compareTitlesCSV, csvWrite, NewWriter, hw]

/-- C1. With no cap and a destination that accepts every write, a source made of a header
and N data rows, each with an identifier and a stored title and each resolving to a
document that parses, makes `compareTitlesCSV` return nil; once the deferred flush has
run, the destination holds the header row followed by exactly N rows, the i-th being
(identifier, stored title, extracted title) of the i-th input row, and the counter ends
at N. -/
theorem all_resolved_rows (w : World) (dest : Destination) (hdr : Record)
    (recs : List Record) (hd : dest.reliable)
    (hv : ∀ r ∈ recs, 2 ≤ r.length ∧ ∃ t, w.resolve (r.getD 0 "") = .title t) :
    (compareTitlesCSV w { Source := .record hdr :: recs.map .record, Destination := dest,
                          RecordsToProcess := 0 }).outcome = .returned none ∧
    (compareTitlesCSV w { Source := .record hdr :: recs.map .record, Destination := dest,
                          RecordsToProcess := 0 }).output =
      some (outputHeader :: recs.map (outRow w)) ∧
    (recs.map (outRow w)).length = recs.length ∧
    (compareTitlesCSV w { Source := .record hdr :: recs.map .record, Destination := dest,
                          RecordsToProcess := 0 }).lineCount = recs.length := by
  have hp : ∀ r ∈ recs, w.passes r := by
    intro r hr
    obtain ⟨hl, t, ht⟩ := hv r hr
    refine ⟨?_, Or.inr ⟨hl, t, ht⟩⟩
    intro h0
    rw [h0] at hl
    simp at hl
  have hall : writtenRows w recs = recs.map (outRow w) := by
    unfold writtenRows
    congr 1
    apply List.filter_eq_self.2
    intro r hr
    obtain ⟨hl, t, ht⟩ := hv r hr
    cases r with
    | nil => simp at hl
    | cons id more =>
      simp only [List.getD_cons_zero] at ht
      simp [World.isNotFound, ht]
  have hrun := loop_passes w dest 0 (fun i => (hd i).1) recs [outputHeader] 0 [] []
    hp (Or.inl (le_refl 0))
  rw [List.append_nil, loop_nil] at hrun
  have hfl : ∀ i, dest.flushErr i = none := fun i => (hd i).2
  rw [compareTitlesCSV_record w dest 0 hdr _ (hd 0).1, hrun, hall]
  simp [deferFlush, LoopState.exit, csvFlush, hfl, Result.output]

/-- Instance of C1: a row with a titled document and a row with an empty title. The
writer is left without error and with its buffer flushed. -/
theorem all_resolved_rows_witness :
    (compareTitlesCSV sampleWorld
      { Source := [.record sampleHeader, .record ["A1", "Old Title", "2024-01-01"],
                   .record ["E1", "T", "2024-01-02"]],
        Destination := goodDest, RecordsToProcess := 0 }).output =
      some [outputHeader, ["A1", "Old Title", "New Title"], ["E1", "T", ""]] ∧
    (compareTitlesCSV sampleWorld
      { Source := [.record sampleHeader, .record ["A1", "Old Title", "2024-01-01"],
                   .record ["E1", "T", "2024-01-02"]],
        Destination := goodDest, RecordsToProcess := 0 }).writer =
      some { rows := [outputHeader, ["A1", "Old Title", "New Title"], ["E1", "T", ""]],
             err := none, pending := false } :=
  ⟨(all_resolved_rows sampleWorld goodDest sampleHeader
    [["A1", "Old Title", "2024-01-01"], ["E1", "T", "2024-01-02"]]
    (fun _ => ⟨rfl, rfl⟩)
    (by
      intro r hr
      simp only [List.mem_cons, List.mem_singleton, List.not_mem_nil, or_false] at hr
      rcases hr with rfl | rfl
      · exact ⟨by decide, "New Title", by decide⟩
      · exact ⟨by decide, "", by decide⟩)).2.1, by decide⟩

/-- C3. On a destination that accepts every write, let the records before the k-th all
pass (absent blob, or a document that parses), let the k-th be within the cap and resolve
to a store failure other than absence or to a document that does not parse. Then
`compareTitlesCSV` returns an error built from "unable to process line %d, %w" with the
number k around an error that is not the not-found sentinel; the deferred flush runs on
this abort path too, so the destination holds the header and the rows of the found records
among the first k-1; the counter is k-1; nothing after record k is read or looked up. -/
theorem first_fatal_aborts (w : World) (dest : Destination) (cap : Int) (hdr : Record)
    (pre : List Record) (id : String) (more : List String) (post : List ReadResult)
    (hd : dest.reliable) (hcap : cap ≤ 0 ∨ (pre.length : Int) < cap)
    (hpre : ∀ r ∈ pre, w.passes r)
    (hk : ∃ e, w.resolve id = .storeUnavailable e ∨ w.resolve id = .malformedDocument e) :
    (∃ inner,
      (compareTitlesCSV w
        { Source := .record hdr :: (pre.map .record ++ .record (id :: more) :: post),
          Destination := dest, RecordsToProcess := cap }).outcome =
        .returned (some (.wrapf "unable to process line %d, %w" [(pre.length : Int) + 1] inner))
      ∧ errorsIs inner .errObjReadFailed = false) ∧
    (compareTitlesCSV w
        { Source := .record hdr :: (pre.map .record ++ .record (id :: more) :: post),
          Destination := dest, RecordsToProcess := cap }).output =
      some (outputHeader :: writtenRows w pre) ∧
    (compareTitlesCSV w
        { Source := .record hdr :: (pre.map .record ++ .record (id :: more) :: post),
          Destination := dest, RecordsToProcess := cap }).lineCount = pre.length ∧
    (compareTitlesCSV w
        { Source := .record hdr :: (pre.map .record ++ .record (id :: more) :: post),
          Destination := dest, RecordsToProcess := cap }).unread = post ∧
    (compareTitlesCSV w
        { Source := .record hdr :: (pre.map .record ++ .record (id :: more) :: post),
          Destination := dest, RecordsToProcess := cap }).lookups =
      pre.map (fun r => contentPath (r.getD 0 "")) ++ [contentPath id] := by
  have hrun := loop_passes w dest cap (fun i => (hd i).1) pre [outputHeader] 0 []
    (.record (id :: more) :: post) hpre (by simpa using hcap)
  have hfl : ∀ i, dest.flushErr i = none := fun i => (hd i).2
  rw [compareTitlesCSV_record w dest cap hdr _ (hd 0).1, hrun, loop_record, loopBody_cons]
  obtain ⟨e, he | he⟩ := hk
  · simp only [he]
    simp only [deferFlush, LoopState.exit, Option.map_some', csvFlush, hfl, if_true]
    refine ⟨⟨.wrapf "content get error: %w" [] (.lib e), ?_, ?_⟩, ?_⟩
    · simp only [zero_add]
    · simp [errorsIs]
    · simp [Result.output]
  · simp only [he]
    simp only [deferFlush, LoopState.exit, Option.map_some', csvFlush, hfl, if_true]
    refine ⟨⟨.wrapf "content cleaning error: %w" []
      (.wrapf "unmarshal error: %w" [] (.lib e)), ?_, ?_⟩, ?_⟩
    · simp only [zero_add]
    · simp [errorsIs]
    · simp [Result.output]

/-- Instance of C3: a written row, a skipped row, then a document that does not parse on
line 3, followed by a row that is never reached. The writer is left without error and
with its buffer flushed. -/
theorem first_fatal_aborts_witness :
    (compareTitlesCSV sampleWorld
        { Source := [.record sampleHeader, .record ["A1", "Old Title", "2024-01-01"],
                     .record ["A2", "T", "2024-01-01"], .record ["B1", "U", "2024-01-03"],
                     .record ["A1", "V", "2024-01-04"]],
          Destination := goodDest, RecordsToProcess := 0 }).output =
      some [outputHeader, ["A1", "Old Title", "New Title"]] ∧
    (compareTitlesCSV sampleWorld
        { Source := [.record sampleHeader, .record ["A1", "Old Title", "2024-01-01"],
                     .record ["A2", "T", "2024-01-01"], .record ["B1", "U", "2024-01-03"],
                     .record ["A1", "V", "2024-01-04"]],
          Destination := goodDest, RecordsToProcess := 0 }).lineCount = 2 ∧
    (compareTitlesCSV sampleWorld
        { Source := [.record sampleHeader, .record ["A1", "Old Title", "2024-01-01"],
                     .record ["A2", "T", "2024-01-01"], .record ["B1", "U", "2024-01-03"],
                     .record ["A1", "V", "2024-01-04"]],
          Destination := goodDest, RecordsToProcess := 0 }).writer =
      some { rows := [outputHeader, ["A1", "Old Title", "New Title"]],
             err := none, pending := false } :=
  have h := first_fatal_aborts sampleWorld goodDest 0 sampleHeader
    [["A1", "Old Title", "2024-01-01"], ["A2", "T", "2024-01-01"]] "B1"
    ["U", "2024-01-03"] [.record ["A1", "V", "2024-01-04"]]
    (fun _ => ⟨rfl, rfl⟩) (Or.inl (le_refl 0))
    (by
      intro r hr
      simp only [List.mem_cons, List.mem_singleton, List.not_mem_nil, or_false] at hr
      rcases hr with rfl | rfl
      · exact ⟨by decide, Or.inr ⟨by decide, "New Title", by decide⟩⟩
      · exact ⟨by decide, Or.inl (by decide)⟩)
    ⟨{ msg := "XML syntax error: unexpected EOF", notExist := false }, Or.inr (by decide)⟩
  ⟨h.2.1, h.2.2.1, by decide⟩

/-- C4, as the code has it. Under a cap c > 0, a run that returns nil has examined
min(c, N) records, N being the number of data rows of the source: the counter equals
min(c, N), one lookup was made per counted record, and exactly the rows after the c-th
are left unread. -/
theorem cap_bounds_examined (w : World) (req : compareRequest)
    (hc : 0 < req.RecordsToProcess)
    (hok : (compareTitlesCSV w req).outcome = .returned none) :
    (compareTitlesCSV w req).lineCount =
      min req.RecordsToProcess ((req.Source.length : Int) - 1) ∧
    (compareTitlesCSV w req).unread = req.Source.drop (req.RecordsToProcess.toNat + 1) ∧
    ((compareTitlesCSV w req).lookups.length : Int) = (compareTitlesCSV w req).lineCount := by
  obtain ⟨src, dest, cap⟩ := req
  simp only at hc
  cases src with
  | nil => simp [compareTitlesCSV] at hok
  | cons x rest =>
    cases x with
    | failure e => simp [compareTitlesCSV] at hok
    | record h =>
      cases hw : dest.writeErr 0 with
      | some e => simp [compareTitlesCSV, csvWrite, NewWriter, hw, deferFlush, LoopState.exit] at hok
      | none =>
        rw [compareTitlesCSV_record w dest cap h rest hw] at hok ⊢
        simp only [deferFlush] at hok ⊢
        obtain ⟨h1, h2, h3⟩ := loop_cap_count w dest cap hc rest
          { writer := { rows := [outputHeader], err := none, pending := true },
            lineCount := 0, lookups := [] }
          hc hok
        refine ⟨?_, ?_, ?_⟩
        · rw [h1]
          simp
        · rw [h2]
          simp
        · simp only [List.length_nil, Nat.cast_zero, sub_self] at h3
          omega

/-- Instance of C4 as amended: a cap of 2 on four data rows. -/
theorem cap_bounds_examined_witness :
    (compareTitlesCSV sampleWorld
        { Source := [.record sampleHeader, .record ["A1", "Old Title", "2024-01-01"],
                     .record ["A2", "T", "2024-01-01"], .record ["B1", "U", "2024-01-03"],
                     .record ["A1", "V", "2024-01-04"]],
          Destination := goodDest, RecordsToProcess := 2 }).lineCount = 2 ∧
    (compareTitlesCSV sampleWorld
        { Source := [.record sampleHeader, .record ["A1", "Old Title", "2024-01-01"],
                     .record ["A2", "T", "2024-01-01"], .record ["B1", "U", "2024-01-03"],
                     .record ["A1", "V", "2024-01-04"]],
          Destination := goodDest, RecordsToProcess := 2 }).unread =
      [.record ["B1", "U", "2024-01-03"], .record ["A1", "V", "2024-01-04"]] :=
  have h := cap_bounds_examined sampleWorld
    { Source := [.record sampleHeader, .record ["A1", "Old Title", "2024-01-01"],
                 .record ["A2", "T", "2024-01-01"], .record ["B1", "U", "2024-01-03"],
                 .record ["A1", "V", "2024-01-04"]],
      Destination := goodDest, RecordsToProcess := 2 } (by decide) (by decide)
  ⟨h.1, h.2.1⟩

/-- C4 as stated fails on a short source: with a cap of 5 and a single data row the run
returns nil with the counter at 1, not 5. -/
theorem cap_not_reached_on_short_source :
    (compareTitlesCSV sampleWorld
        { Source := [.record sampleHeader, .record ["A1", "Old Title", "2024-01-01"]],
          Destination := goodDest, RecordsToProcess := 5 }).outcome = .returned none ∧
    (compareTitlesCSV sampleWorld
        { Source := [.record sampleHeader, .record ["A1", "Old Title", "2024-01-01"]],
          Destination := goodDest, RecordsToProcess := 5 }).lineCount = 1 ∧
    (compareTitlesCSV sampleWorld
        { Source := [.record sampleHeader, .record ["A1", "Old Title", "2024-01-01"]],
          Destination := goodDest, RecordsToProcess := 5 }).lineCount ≠ 5 := by
  decide

theorem compareTitlesCSV_cons_record (w : World) (dest : Destination) (cap : Int)
    (h : Record) (rest : List ReadResult) :
    compareTitlesCSV w { Source := .record h :: rest, Destination := dest,
                         RecordsToProcess := cap } =
      match dest.writeErr 0 with
      | some e =>
        { outcome := .returned (some (.wrapf "result output error %w" [] (.lib e))),
          writer := some { rows := [], err := some e, pending := false },
          lineCount := 0, lookups := [],
          unread := rest }
      | none =>
        deferFlush dest (loop w dest cap
          { writer := { rows := [outputHeader], err := none, pending := true },
            lineCount := 0, lookups := [] }
          rest) := by
  cases hw : dest.writeErr 0 <;>
    simp [compareTitlesCSV, csvWrite, NewWriter, hw, deferFlush, LoopState.exit, csvFlush]

/-- The run with cap `c` agrees with the run without cap on the source cut at the cap. -/
theorem cap_truncation_fields (w : World) (src : List ReadResult) (dest : Destination)
    (c : Int) :
    (compareTitlesCSV w { Source := src, Destination := dest,
                          RecordsToProcess := c }).outcome =
      (compareTitlesCSV w { Source := truncateSource c src, Destination := dest,
                            RecordsToProcess := 0 }).outcome ∧
    (compareTitlesCSV w { Source := src, Destination := dest,
                          RecordsToProcess := c }).writer =
      (compareTitlesCSV w { Source := truncateSource c src, Destination := dest,
                            RecordsToProcess := 0 }).writer ∧
    (compareTitlesCSV w { Source := src, Destination := dest,
                          RecordsToProcess := c }).lineCount =
      (compareTitlesCSV w { Source := truncateSource c src, Destination := dest,
                            RecordsToProcess := 0 }).lineCount ∧
    (compareTitlesCSV w { Source := src, Destination := dest,
                          RecordsToProcess := c }).lookups =
      (compareTitlesCSV w { Source := truncateSource c src, Destination := dest,
                            RecordsToProcess := 0 }).lookups := by
  by_cases hc : 0 < c
  · simp only [truncateSource, if_pos hc]
    cases src with
    | nil => simp [compareTitlesCSV]
    | cons x rest =>
      rw [List.take_succ_cons]
      cases x with
      | failure e => simp [compareTitlesCSV]
      | record h =>
        rw [compareTitlesCSV_cons_record, compareTitlesCSV_cons_record]
        cases dest.writeErr 0 with
        | some e => simp
        | none =>
          have := loop_cap_truncate w dest c hc rest
            { writer := { rows := [outputHeader], err := none, pending := true }, lineCount := 0,
              lookups := [] } hc
          simp only [sub_zero] at this
          obtain ⟨h1, h2, h3, h4⟩ := this
          simp only [deferFlush, h1, h2, h3, h4, and_self]
  · simp only [truncateSource, if_neg hc]
    cases src with
    | nil => simp [compareTitlesCSV]
    | cons x rest =>
      cases x with
      | failure e => simp [compareTitlesCSV]
      | record h =>
        rw [compareTitlesCSV_cons_record, compareTitlesCSV_cons_record,
          loop_nonpos_cap w dest c (by omega)]
        simp

/-- C10. A run with cap c gives the same returned value, the same writer state (hence the
same output rows), the same counter and the same lookups as the run with
`RecordsToProcess = 0` on the source cut after its first c data rows when c > 0, and on
the whole source when c ≤ 0. So under a cap c > 0 two sources with the same header and the
same first c data rows give the same return value and output, whatever follows; and a run
with c ≤ 0 that returns nil has counted every data row and left nothing unread. -/
theorem cap_is_truncation (w : World) (src : List ReadResult) (dest : Destination)
    (c : Int) :
    ((compareTitlesCSV w { Source := src, Destination := dest,
                           RecordsToProcess := c }).outcome =
        (compareTitlesCSV w { Source := truncateSource c src, Destination := dest,
                              RecordsToProcess := 0 }).outcome ∧
      (compareTitlesCSV w { Source := src, Destination := dest,
                            RecordsToProcess := c }).writer =
        (compareTitlesCSV w { Source := truncateSource c src, Destination := dest,
                              RecordsToProcess := 0 }).writer ∧
      (compareTitlesCSV w { Source := src, Destination := dest,
                            RecordsToProcess := c }).output =
        (compareTitlesCSV w { Source := truncateSource c src, Destination := dest,
                              RecordsToProcess := 0 }).output ∧
      (compareTitlesCSV w { Source := src, Destination := dest,
                            RecordsToProcess := c }).lineCount =
        (compareTitlesCSV w { Source := truncateSource c src, Destination := dest,
                              RecordsToProcess := 0 }).lineCount ∧
      (compareTitlesCSV w { Source := src, Destination := dest,
                            RecordsToProcess := c }).lookups =
        (compareTitlesCSV w { Source := truncateSource c src, Destination := dest,
                              RecordsToProcess := 0 }).lookups) ∧
    (∀ src2 : List ReadResult, 0 < c → src2.take (c.toNat + 1) = src.take (c.toNat + 1) →
      (compareTitlesCSV w { Source := src2, Destination := dest,
                            RecordsToProcess := c }).outcome =
        (compareTitlesCSV w { Source := src, Destination := dest,
                              RecordsToProcess := c }).outcome ∧
      (compareTitlesCSV w { Source := src2, Destination := dest,
                            RecordsToProcess := c }).output =
        (compareTitlesCSV w { Source := src, Destination := dest,
                              RecordsToProcess := c }).output ∧
      (compareTitlesCSV w { Source := src2, Destination := dest,
                            RecordsToProcess := c }).lineCount =
        (compareTitlesCSV w { Source := src, Destination := dest,
                              RecordsToProcess := c }).lineCount) ∧
    (c ≤ 0 →
      (compareTitlesCSV w { Source := src, Destination := dest,
                            RecordsToProcess := c }).outcome = .returned none →
      (compareTitlesCSV w { Source := src, Destination := dest,
                            RecordsToProcess := c }).lineCount = (src.length : Int) - 1 ∧
      (compareTitlesCSV w { Source := src, Destination := dest,
                            RecordsToProcess := c }).unread = []) := by
  refine ⟨?_, ?_, ?_⟩
  · obtain ⟨h1, h2, h3, h4⟩ := cap_truncation_fields w src dest c
    refine ⟨h1, h2, ?_, h3, h4⟩
    simp only [Result.output, h2]
  · intro src2 hc htake
    obtain ⟨a1, a2, a3, _⟩ := cap_truncation_fields w src dest c
    obtain ⟨b1, b2, b3, _⟩ := cap_truncation_fields w src2 dest c
    simp only [truncateSource, if_pos hc] at a1 a2 a3 b1 b2 b3
    rw [htake] at b1 b2 b3
    refine ⟨b1.trans a1.symm, ?_, b3.trans a3.symm⟩
    simp only [Result.output, b2.trans a2.symm]
  · intro hc hout
    cases src with
    | nil => simp [compareTitlesCSV] at hout
    | cons x rest =>
      cases x with
      | failure e => simp [compareTitlesCSV] at hout
      | record h =>
        rw [compareTitlesCSV_cons_record] at hout ⊢
        cases hw : dest.writeErr 0 with
        | some e => simp [hw] at hout
        | none =>
          simp only [hw, deferFlush] at hout ⊢
          obtain ⟨h1, h2⟩ := loop_uncapped_count w dest c hc rest _ hout
          refine ⟨?_, h2⟩
          rw [h1]
          simp

/-- Instance of C10: with a cap of 1 the unreadable second data row is never met, and the
run agrees with the uncapped run on the source cut after one data row. -/
theorem cap_is_truncation_witness :
    (compareTitlesCSV sampleWorld
        { Source := [.record sampleHeader, .record ["A1", "Old Title", "2024-01-01"],
                     .failure { msg := "record on line 3: wrong number of fields",
                                notExist := false }],
          Destination := goodDest, RecordsToProcess := 1 }).outcome =
      (compareTitlesCSV sampleWorld
        { Source := [.record sampleHeader, .record ["A1", "Old Title", "2024-01-01"]],
          Destination := goodDest, RecordsToProcess := 1 }).outcome ∧
    (compareTitlesCSV sampleWorld
        { Source := [.record sampleHeader, .record ["A1", "Old Title", "2024-01-01"]],
          Destination := goodDest, RecordsToProcess := -1 }).lineCount = 1 :=
  ⟨((cap_is_truncation sampleWorld
      [.record sampleHeader, .record ["A1", "Old Title", "2024-01-01"]] goodDest 1).2.1
      [.record sampleHeader, .record ["A1", "Old Title", "2024-01-01"],
       .failure { msg := "record on line 3: wrong number of fields", notExist := false }]
      (by decide) rfl).1,
   ((cap_is_truncation sampleWorld
      [.record sampleHeader, .record ["A1", "Old Title", "2024-01-01"]] goodDest (-1)).2.2
      (by decide) (by decide)).1⟩

theorem deferFlush_sameEffect (dest : Destination) (a b : Result) (h : a.sameEffect b) :
    (deferFlush dest a).sameEffect (deferFlush dest b) := by
  obtain ⟨h1, h2, h3⟩ := h
  exact ⟨by simp only [deferFlush, h1], h2, h3⟩

/-- C2. Let the blob of `id` be absent (`os.ReadFile` fails with an error that is
`fs.ErrNotExist`). Then (1) from every loop state, a record with identifier `id` leaves the
writer untouched, adds one to the counter, makes one lookup, raises nothing, and the loop
either stops because the cap is reached or goes on with the records after it; (2) in runs
without a cap the record may be removed from the source without changing the writer state,
the output, or whether the run returns nil, returns an error or panics, and a run that
returns nil counts one more with the record than without it. -/
theorem not_found_is_skipped (w : World) (dest : Destination) (id : String)
    (more : List String) (e : LibError)
    (hread : w.readFile (contentPath id) = .error e) (hne : e.notExist = true) :
    (processRecord w { YggdrasilID := id }).2 =
        some (.wrapf "content get error: %w" [] errObjReadFailed) ∧
    (∀ (cap : Int) (st : LoopState) (post : List ReadResult),
      loop w dest cap st (.record (id :: more) :: post) =
        if 0 < cap ∧ cap ≤ st.lineCount + 1 then
          LoopState.exit { writer := st.writer, lineCount := st.lineCount + 1,
                           lookups := st.lookups ++ [contentPath id] } (.returned none) post
        else
          loop w dest cap { writer := st.writer, lineCount := st.lineCount + 1,
                            lookups := st.lookups ++ [contentPath id] } post) ∧
    (∀ (h : ReadResult) (pre post : List ReadResult),
      (compareTitlesCSV w { Source := h :: (pre ++ .record (id :: more) :: post),
                            Destination := dest, RecordsToProcess := 0 }).sameEffect
        (compareTitlesCSV w { Source := h :: (pre ++ post),
                              Destination := dest, RecordsToProcess := 0 }) ∧
      (compareTitlesCSV w { Source := h :: (pre ++ .record (id :: more) :: post),
                            Destination := dest, RecordsToProcess := 0 }).output =
        (compareTitlesCSV w { Source := h :: (pre ++ post),
                              Destination := dest, RecordsToProcess := 0 }).output ∧
      ((compareTitlesCSV w { Source := h :: (pre ++ .record (id :: more) :: post),
                             Destination := dest, RecordsToProcess := 0 }).outcome =
          .returned none →
        (compareTitlesCSV w { Source := h :: (pre ++ .record (id :: more) :: post),
                              Destination := dest, RecordsToProcess := 0 }).lineCount =
          (compareTitlesCSV w { Source := h :: (pre ++ post),
                                Destination := dest, RecordsToProcess := 0 }).lineCount + 1)) := by
  have hnf : w.resolve id = .notFound := (resolve_notFound_iff w id).2 ⟨e, hread, hne⟩
  refine ⟨?_, ?_, ?_⟩
  · rw [processRecord_resolve, hnf]
  · intro cap st post
    rw [loop_record, loopBody_cons, hnf]
  · intro h pre post
    have key :
        (compareTitlesCSV w { Source := h :: (pre ++ .record (id :: more) :: post),
                              Destination := dest, RecordsToProcess := 0 }).sameEffect
          (compareTitlesCSV w { Source := h :: (pre ++ post),
                                Destination := dest, RecordsToProcess := 0 }) ∧
        ((compareTitlesCSV w { Source := h :: (pre ++ .record (id :: more) :: post),
                               Destination := dest, RecordsToProcess := 0 }).outcome =
            .returned none →
          (compareTitlesCSV w { Source := h :: (pre ++ .record (id :: more) :: post),
                                Destination := dest, RecordsToProcess := 0 }).lineCount =
            (compareTitlesCSV w { Source := h :: (pre ++ post),
                                  Destination := dest, RecordsToProcess := 0 }).lineCount + 1) := by
      cases h with
      | failure e2 => simp [compareTitlesCSV, Result.sameEffect]
      | record hdr =>
        rw [compareTitlesCSV_cons_record, compareTitlesCSV_cons_record]
        cases dest.writeErr 0 with
        | some e2 => simp [Result.sameEffect]
        | none =>
          have hs := loop_skip_sameEffect w dest 0 (le_refl 0) id more post hnf pre
            { writer := { rows := [outputHeader], err := none, pending := true },
              lineCount := 0, lookups := [] }
            { writer := { rows := [outputHeader], err := none, pending := true },
              lineCount := 0, lookups := [] }
            rfl
          refine ⟨deferFlush_sameEffect dest _ _ hs, ?_⟩
          intro hout
          have hout1 : (loop w dest 0
              { writer := { rows := [outputHeader], err := none, pending := true }, lineCount := 0,
                lookups := [] } (pre ++ .record (id :: more) :: post)).outcome =
              .returned none := hout
          have hout2 := hs.2.1.1 hout1
          have c1 := (loop_uncapped_count w dest 0 (le_refl 0) _ _ hout1).1
          have c2 := (loop_uncapped_count w dest 0 (le_refl 0) _ _ hout2).1
          simp only [deferFlush]
          rw [c1, c2]
          simp only [List.length_append, List.length_cons, Nat.cast_add, Nat.cast_one]
          ring
    refine ⟨key.1, ?_, key.2⟩
    simp only [Result.output, key.1.1]

/-- Instance of C2: `A2` has no blob; the row after it is still written and the counter
reaches 3. -/
theorem not_found_is_skipped_witness :
    (compareTitlesCSV sampleWorld
        { Source := .record sampleHeader ::
            ([.record ["A1", "Old Title", "2024-01-01"]] ++
              .record ["A2", "T", "2024-01-01"] :: [.record ["E1", "U", "2024-01-02"]]),
          Destination := goodDest, RecordsToProcess := 0 }).output =
      (compareTitlesCSV sampleWorld
        { Source := .record sampleHeader ::
            ([.record ["A1", "Old Title", "2024-01-01"]] ++ [.record ["E1", "U", "2024-01-02"]]),
          Destination := goodDest, RecordsToProcess := 0 }).output :=
  ((not_found_is_skipped sampleWorld goodDest "A2" ["T", "2024-01-01"]
      { msg := "no such file or directory", notExist := true } rfl rfl).2.2
    (.record sampleHeader) [.record ["A1", "Old Title", "2024-01-01"]]
    [.record ["E1", "U", "2024-01-02"]]).2.1

theorem csvFlush_rows (dest : Destination) (cw : CsvWriter) :
    (csvFlush dest cw).rows = cw.rows := by
  unfold csvFlush
  cases cw.err with
  | some e => rfl
  | none =>
    cases cw.pending with
    | false => rfl
    | true => cases dest.flushErr cw.rows.length <;> rfl

/-- A flush leaves the writer either with its error recorded or with an empty buffer. -/
theorem csvFlush_pending (dest : Destination) (cw : CsvWriter)
    (h : (csvFlush dest cw).err = none) : (csvFlush dest cw).pending = false := by
  unfold csvFlush at h ⊢
  cases he : cw.err with
  | some e => simp [he] at h
  | none =>
    cases hp : cw.pending with
    | false => simp [hp]
    | true =>
      cases hf : dest.flushErr cw.rows.length with
      | none => simp
      | some e => simp [he, hp, hf] at h

theorem rows_deferFlush (dest : Destination) (r : Result) :
    (deferFlush dest r).rows = r.rows := by
  unfold deferFlush Result.rows
  cases r.writer with
  | none => rfl
  | some cw => simp only [Option.map_some', csvFlush_rows]

/-- When `compareTitlesCSV` has left, the writer it created either carries an error or has
had its buffer emptied by the deferred flush. -/
theorem compareTitlesCSV_flushed (w : World) (req : compareRequest) (cw : CsvWriter)
    (h : (compareTitlesCSV w req).writer = some cw) (he : cw.err = none) :
    cw.pending = false := by
  obtain ⟨src, dest, cap⟩ := req
  cases src with
  | nil => simp [compareTitlesCSV] at h
  | cons x rest =>
    cases x with
    | failure e => simp [compareTitlesCSV] at h
    | record hdr =>
      rw [compareTitlesCSV_cons_record] at h
      cases hw : dest.writeErr 0 with
      | some e =>
        simp only [hw, Option.some.injEq] at h
        rw [← h] at he
        simp at he
      | none =>
        simp only [hw, deferFlush] at h
        cases hl : (loop w dest cap
          { writer := { rows := [outputHeader], err := none, pending := true },
            lineCount := 0, lookups := [] } rest).writer with
        | none => simp [hl] at h
        | some cw0 =>
          simp only [hl, Option.map_some', Option.some.injEq] at h
          subst h
          exact csvFlush_pending dest cw0 he

/-- C5. For every environment, source, destination and cap, and however the run ends, the
data rows accepted by the writer are the output rows of the records that are not skipped
among the first j input records, for some j: their (identifier, stored title) pairs are
the pairs of that filtered prefix, in the same order. The destination holds exactly the
accepted rows unless one of its underlying writes failed. -/
theorem output_rows_in_input_order (w : World) (req : compareRequest) :
    ∃ j, j ≤ (leadingRecords req.Source.tail).length ∧
      (compareTitlesCSV w req).rows.tail =
        writtenRows w ((leadingRecords req.Source.tail).take j) ∧
      (compareTitlesCSV w req).rows.tail.map fieldsPair =
        (((leadingRecords req.Source.tail).take j).filter
          (fun r => !w.isNotFound r)).map fieldsPair ∧
      (∀ x ∈ ((leadingRecords req.Source.tail).take j).filter (fun r => !w.isNotFound r),
        2 ≤ x.length) ∧
      ((compareTitlesCSV w req).output = some (compareTitlesCSV w req).rows ∨
        (compareTitlesCSV w req).destErr ≠ none) := by
  have hpair : ∀ l : List Record, (writtenRows w l).map fieldsPair =
      (l.filter (fun r => !w.isNotFound r)).map fieldsPair := by
    intro l
    simp [writtenRows, List.map_map, Function.comp_def, fieldsPair, outRow]
  have hout : (compareTitlesCSV w req).output = some (compareTitlesCSV w req).rows ∨
      (compareTitlesCSV w req).destErr ≠ none := by
    unfold Result.output Result.rows Result.destErr
    cases hwr : (compareTitlesCSV w req).writer with
    | none => simp
    | some cw =>
      cases he : cw.err with
      | some e => simp [he]
      | none => simp [compareTitlesCSV_flushed w req cw hwr he, he]
  obtain ⟨src, dest, cap⟩ := req
  cases src with
  | nil =>
    exact ⟨0, by simp, by simp [compareTitlesCSV, Result.rows, writtenRows],
      by simp [compareTitlesCSV, Result.rows], by simp, hout⟩
  | cons x rest =>
    cases x with
    | failure e =>
      exact ⟨0, by simp, by simp [compareTitlesCSV, Result.rows, writtenRows],
        by simp [compareTitlesCSV, Result.rows], by simp, hout⟩
    | record h =>
      cases hw : dest.writeErr 0 with
      | some e =>
        have hrows : (compareTitlesCSV w
            { Source := .record h :: rest, Destination := dest,
              RecordsToProcess := cap }).rows = [] := by
          rw [compareTitlesCSV_cons_record, hw]
          rfl
        exact ⟨0, by simp, by simp [hrows, writtenRows], by simp [hrows], by simp, hout⟩
      | none =>
        obtain ⟨⟨j, hj, hrows, hlen⟩, _⟩ := loop_rows w dest cap rest
          { writer := { rows := [outputHeader], err := none, pending := true },
            lineCount := 0, lookups := [] }
        have hrows2 : (compareTitlesCSV w
            { Source := .record h :: rest, Destination := dest,
              RecordsToProcess := cap }).rows.tail =
            writtenRows w ((leadingRecords rest).take j) := by
          rw [compareTitlesCSV_record w dest cap h rest hw, rows_deferFlush, hrows]
          rfl
        refine ⟨j, hj, hrows2, ?_, hlen, hout⟩
        rw [hrows2]
        exact hpair _

/-- Every failure of an underlying write is either returned by `compareTitlesCSV` or is
the failure of the deferred `Flush`. -/
theorem dest_failure_returned_or_at_flush (w : World) (req : compareRequest) :
    (compareTitlesCSV w req).destErr = none ∨
    (∃ err, (compareTitlesCSV w req).outcome = .returned (some err)) ∨
    (∃ e, req.Destination.flushErr (compareTitlesCSV w req).rows.length = some e ∧
      (compareTitlesCSV w req).destErr = some e) := by
  obtain ⟨src, dest, cap⟩ := req
  cases src with
  | nil => exact Or.inl rfl
  | cons x rest =>
    cases x with
    | failure e => exact Or.inl rfl
    | record h =>
      rw [compareTitlesCSV_cons_record]
      cases hw : dest.writeErr 0 with
      | some e => exact Or.inr (Or.inl ⟨_, rfl⟩)
      | none =>
        simp only
        rcases loop_writer_err w dest cap rest
          { writer := { rows := [outputHeader], err := none, pending := true },
            lineCount := 0, lookups := [] }
          rfl with h1 | ⟨err, h2⟩
        · generalize loop w dest cap
            { writer := { rows := [outputHeader], err := none, pending := true }, lineCount := 0,
              lookups := [] } rest = res at h1
          obtain ⟨o, wr, n, lk, u⟩ := res
          cases wr with
          | none => exact Or.inl rfl
          | some cw =>
            simp only [Result.destErr] at h1
            cases hp : cw.pending with
            | false =>
              exact Or.inl (by simp [deferFlush, Result.destErr, csvFlush, h1, hp])
            | true =>
              cases hf : dest.flushErr cw.rows.length with
              | none =>
                exact Or.inl (by simp [deferFlush, Result.destErr, csvFlush, h1, hp, hf])
              | some e =>
                exact Or.inr (Or.inr ⟨e,
                  by simp [deferFlush, Result.rows, csvFlush, h1, hp, hf],
                  by simp [deferFlush, Result.destErr, csvFlush, h1, hp, hf]⟩)
        · exact Or.inr (Or.inl ⟨err, by simp only [deferFlush, h2]⟩)

/-- The value returned by `compareTitlesCSV` does not depend on whether the deferred
`Flush` succeeds. -/
theorem outcome_ignores_flush (w : World) (src : List ReadResult) (dest : Destination)
    (f : Nat → Option LibError) (cap : Int) :
    (compareTitlesCSV w { Source := src,
                          Destination := { writeErr := dest.writeErr, flushErr := f },
                          RecordsToProcess := cap }).outcome =
      (compareTitlesCSV w { Source := src, Destination := dest,
                            RecordsToProcess := cap }).outcome := by
  cases src with
  | nil => rfl
  | cons x rest =>
    cases x with
    | failure e => rfl
    | record h =>
      rw [compareTitlesCSV_cons_record, compareTitlesCSV_cons_record]
      cases hw : dest.writeErr 0 with
      | some e => simp [hw]
      | none =>
        simp only [hw, deferFlush]
        rw [loop_ignores_flushErr]

/-- C6, at the failing input. The destination rejects every write; the two rows fit in the
writer's buffer, so both calls of `csvWriter.Write` return nil and the only underlying
write is the one of the deferred `csvWriter.Flush`, whose failure `compareTitlesCSV` never
sees: the run returns nil although the destination holds no row at all. -/
theorem flush_failure_returns_nil :
    (compareTitlesCSV sampleWorld
        { Source := [.record sampleHeader, .record ["A1", "Old Title", "2024-01-01"]],
          Destination := closedDest, RecordsToProcess := 0 }).outcome = .returned none ∧
    (compareTitlesCSV sampleWorld
        { Source := [.record sampleHeader, .record ["A1", "Old Title", "2024-01-01"]],
          Destination := closedDest, RecordsToProcess := 0 }).destErr =
      some { msg := "write: file already closed", notExist := false } ∧
    (compareTitlesCSV sampleWorld
        { Source := [.record sampleHeader, .record ["A1", "Old Title", "2024-01-01"]],
          Destination := closedDest, RecordsToProcess := 0 }).rows =
      [outputHeader, ["A1", "Old Title", "New Title"]] ∧
    (compareTitlesCSV sampleWorld
        { Source := [.record sampleHeader, .record ["A1", "Old Title", "2024-01-01"]],
          Destination := closedDest, RecordsToProcess := 0 }).output = none := by
  decide

/-- C7. The first row of the source is consumed and plays no part: the result is the same
whatever the header record holds, every lookup is the lookup of a data record, and the
accepted rows are the fixed output header followed by rows of data records. When the
first `Read` fails, with a parse error or with `io.EOF` on an empty source, the run
returns that error wrapped in "unable to parse file as CSV %w", no lookup is made, the
writer is never created and the destination receives nothing. -/
theorem header_consumed_and_discarded (w : World) (dest : Destination) (cap : Int) :
    (∀ (h1 h2 : Record) (rest : List ReadResult),
      compareTitlesCSV w { Source := .record h1 :: rest, Destination := dest,
                           RecordsToProcess := cap } =
        compareTitlesCSV w { Source := .record h2 :: rest, Destination := dest,
                             RecordsToProcess := cap }) ∧
    (∀ (h : Record) (rest : List ReadResult),
      (∃ j, (compareTitlesCSV w { Source := .record h :: rest, Destination := dest,
                                  RecordsToProcess := cap }).lookups =
          ((leadingRecords rest).take j).map (fun r => contentPath (r.getD 0 ""))) ∧
      ((compareTitlesCSV w { Source := .record h :: rest, Destination := dest,
                             RecordsToProcess := cap }).rows = [] ∨
        ∃ j, (compareTitlesCSV w { Source := .record h :: rest, Destination := dest,
                                   RecordsToProcess := cap }).rows =
          outputHeader :: writtenRows w ((leadingRecords rest).take j))) ∧
    (∀ (e : LibError) (rest : List ReadResult),
      compareTitlesCSV w { Source := .failure e :: rest, Destination := dest,
                           RecordsToProcess := cap } =
        { outcome := .returned (some (.wrapf "unable to parse file as CSV %w" [] (.lib e))),
          writer := none, lineCount := 0, lookups := [], unread := rest } ∧
      (compareTitlesCSV w { Source := .failure e :: rest, Destination := dest,
                            RecordsToProcess := cap }).output = some []) ∧
    (compareTitlesCSV w { Source := [], Destination := dest, RecordsToProcess := cap } =
        { outcome := .returned (some (.wrapf "unable to parse file as CSV %w" []
            (.sentinel .ioEOF))),
          writer := none, lineCount := 0, lookups := [], unread := [] } ∧
      (compareTitlesCSV w { Source := [], Destination := dest,
                            RecordsToProcess := cap }).output = some []) := by
  refine ⟨fun _ _ _ => rfl, ?_, fun _ _ => ⟨rfl, rfl⟩, rfl, rfl⟩
  intro h rest
  rw [compareTitlesCSV_cons_record]
  cases dest.writeErr 0 with
  | some e => exact ⟨⟨0, by simp⟩, Or.inl rfl⟩
  | none =>
    obtain ⟨⟨j, _, hrows, _⟩, ⟨j2, hlk⟩⟩ := loop_rows w dest cap rest
      { writer := { rows := [outputHeader], err := none, pending := true },
        lineCount := 0, lookups := [] }
    refine ⟨⟨j2, ?_⟩, Or.inr ⟨j, ?_⟩⟩
    · simpa [deferFlush] using hlk
    · rw [rows_deferFlush, hrows]
      rfl

/-- C8. `parseAndCleanXML` and `processRecord` return the zero response whenever they
return an error, whatever the decoder had put into the struct before failing; when they
return no error the title is the one the decoder reported for the content, and an error
is returned exactly when the decoder (or, for `processRecord`, the lookup) failed. -/
theorem extraction_all_or_nothing (w : World) (content id : String) :
    ((parseAndCleanXML w content).2 ≠ none →
      (parseAndCleanXML w content).1 = { Title := "" }) ∧
    ((parseAndCleanXML w content).2 = none →
      (parseAndCleanXML w content).1.Title = (w.xmlUnmarshal content).1.Title) ∧
    ((parseAndCleanXML w content).2 = none ↔ (w.xmlUnmarshal content).2 = none) ∧
    ((processRecord w { YggdrasilID := id }).2 ≠ none →
      (processRecord w { YggdrasilID := id }).1 = { CleanedTitle := "" }) ∧
    ((processRecord w { YggdrasilID := id }).2 = none →
      ∃ blob, w.readFile (cleanedDataPath ++ "/" ++ (id ++ ".xml")) = .ok blob ∧
        (w.xmlUnmarshal blob).2 = none ∧
        (processRecord w { YggdrasilID := id }).1.CleanedTitle =
          (w.xmlUnmarshal blob).1.Title) := by
  refine ⟨?_, ?_, ?_, ?_, ?_⟩
  · rcases hx : w.xmlUnmarshal content with ⟨doc, _ | e⟩ <;> simp [parseAndCleanXML, hx]
  · rcases hx : w.xmlUnmarshal content with ⟨doc, _ | e⟩ <;> simp [parseAndCleanXML, hx]
  · rcases hx : w.xmlUnmarshal content with ⟨doc, _ | e⟩ <;> simp [parseAndCleanXML, hx]
  · rw [processRecord_resolve]
    cases w.resolve id <;> simp
  · rw [processRecord_resolve]
    cases hr : w.resolve id with
    | notFound => simp
    | storeUnavailable e => simp
    | malformedDocument e => simp
    | title t =>
      obtain ⟨blob, doc, h1, h2, h3⟩ := (resolve_title_iff w id t).1 hr
      intro _
      exact ⟨blob, h1, by simp [h2], by simp [h2, h3]⟩

/-- Instance of C8: the decoder fails on the blob of `B1` after filling the title `Half`;
both functions return an error and an empty title. -/
theorem extraction_all_or_nothing_witness :
    (sampleWorld.xmlUnmarshal "<post title=\"Half\"><main>").1.Title = "Half" ∧
    (parseAndCleanXML sampleWorld "<post title=\"Half\"><main>").1 = { Title := "" } ∧
    (processRecord sampleWorld { YggdrasilID := "B1" }).1 = { CleanedTitle := "" } :=
  ⟨by decide,
    (extraction_all_or_nothing sampleWorld "<post title=\"Half\"><main>" "B1").1 (by decide),
    (extraction_all_or_nothing sampleWorld "<post title=\"Half\"><main>" "B1").2.2.2.1
      (by decide)⟩

/-- C9. Let the blob of `id` be found and parse with an empty title. Then `processRecord`
returns no error and the empty title; and from every loop state whose writer accepts the
row, a record `id, stored, ...` has the row `(id, stored, "")` appended, the counter
advanced by one, and the loop goes on with the records after it (or stops because the cap
is reached), returning nothing on account of this record. -/
theorem empty_title_is_written (w : World) (dest : Destination) (id stored : String)
    (more : List String) (blob : String) (doc : xmlPost)
    (hread : w.readFile (contentPath id) = .ok blob)
    (hparse : w.xmlUnmarshal blob = (doc, none)) (hempty : doc.Title = "") :
    processRecord w { YggdrasilID := id } = ({ CleanedTitle := "" }, none) ∧
    (∀ (cap : Int) (st : LoopState) (post : List ReadResult),
      st.writer.err = none → dest.writeErr st.writer.rows.length = none →
      loop w dest cap st (.record (id :: stored :: more) :: post) =
        if 0 < cap ∧ cap ≤ st.lineCount + 1 then
          LoopState.exit
            { writer :=
                { rows := st.writer.rows ++ [[id, stored, ""]], err := none, pending := true },
              lineCount := st.lineCount + 1,
              lookups := st.lookups ++ [contentPath id] } (.returned none) post
        else
          loop w dest cap
            { writer :=
                { rows := st.writer.rows ++ [[id, stored, ""]], err := none, pending := true },
              lineCount := st.lineCount + 1,
              lookups := st.lookups ++ [contentPath id] } post) ∧
    (∀ (hdr : Record), dest.reliable →
      (compareTitlesCSV w { Source := [.record hdr, .record (id :: stored :: more)],
                            Destination := dest, RecordsToProcess := 0 }).outcome =
        .returned none ∧
      (compareTitlesCSV w { Source := [.record hdr, .record (id :: stored :: more)],
                            Destination := dest, RecordsToProcess := 0 }).output =
        some [outputHeader, [id, stored, ""]]) := by
  have hr : w.resolve id = .title "" :=
    (resolve_title_iff w id "").2 ⟨blob, doc, hread, hparse, hempty⟩
  have hstep : ∀ (cap : Int) (st : LoopState) (post : List ReadResult),
      st.writer.err = none → dest.writeErr st.writer.rows.length = none →
      loop w dest cap st (.record (id :: stored :: more) :: post) =
        if 0 < cap ∧ cap ≤ st.lineCount + 1 then
          LoopState.exit
            { writer :=
                { rows := st.writer.rows ++ [[id, stored, ""]], err := none, pending := true },
              lineCount := st.lineCount + 1,
              lookups := st.lookups ++ [contentPath id] } (.returned none) post
        else
          loop w dest cap
            { writer :=
                { rows := st.writer.rows ++ [[id, stored, ""]], err := none, pending := true },
              lineCount := st.lineCount + 1,
              lookups := st.lookups ++ [contentPath id] } post := by
    intro cap st post herr hw
    obtain ⟨⟨rows, err⟩, n, lk⟩ := st
    simp only at herr hw
    subst herr
    rw [loop_record, loopBody_cons, hr]
    simp only [csvWrite_ok dest rows _ _ hw]
  refine ⟨?_, hstep, ?_⟩
  · rw [processRecord_resolve, hr]
  · intro hdr hd
    rw [compareTitlesCSV_record w dest 0 hdr _ (hd 0).1,
      hstep 0 _ [] rfl (hd _).1]
    have n1 : ¬ ((0 : Int) < 0 ∧ (0 : Int) ≤ 0 + 1) := by omega
    have hfl : ∀ i, dest.flushErr i = none := fun i => (hd i).2
    simp only [if_neg n1, loop_nil]
    simp [deferFlush, LoopState.exit, csvFlush, hfl, Result.output]

/-- Instance of C9: `E1` holds a document whose title attribute is empty. -/
theorem empty_title_is_written_witness :
    (compareTitlesCSV sampleWorld
        { Source := [.record sampleHeader, .record ["E1", "T", "2024-01-02"]],
          Destination := goodDest, RecordsToProcess := 0 }).output =
      some [outputHeader, ["E1", "T", ""]] :=
  ((empty_title_is_written sampleWorld goodDest "E1" "T" ["2024-01-02"]
      "<post title=\"\"><main>text</main></post>" { Title := "", MainBody := "text" }
      rfl rfl rfl).2.2 sampleHeader (fun _ => ⟨rfl, rfl⟩)).2

end CompareTitles
